import Mathlib

/-!
Shallow embedding of the `gemini-cli` Go program (files `main.go`, `api.go`,
and the config/file/handler helpers) in Lean 4, together with proofs of the
specification claims about it.

Modelling conventions:
* Go strings are Lean `String`s (valid Unicode; Go strings holding invalid
  UTF-8 bytes are outside the model).
* Go `float64` CLI values are modelled as `Rat`: the program only compares
  them with `>= 0` and stores them, so exact rationals are faithful for every
  representable input.
* Filesystem and network reads are oracles (`String → Except String _`)
  passed as parameters; the pure logic is translated line by line.
* Go's `error` results become `Except String`, carrying the formatted message.
-/

set_option autoImplicit false

namespace GeminiCLI

/-! ### Models of the Go `strings` standard-library functions used by the code.
`goIsSpace` covers the ASCII and Latin-1 white space recognized by
`unicode.IsSpace`; the handful of higher Unicode space code points are not
modelled (no claim exercises them). `goToLower` lowercases ASCII letters,
the only case mapping the claims exercise. -/

def goIsSpace (c : Char) : Bool :=
  c = ' ' || c = '\t' || c = '\n' || c = '\x0b' || c = '\x0c' || c = '\r' ||
  c = '\x85' || c = '\xa0'

def trimSpaceList (l : List Char) : List Char :=
  ((l.dropWhile goIsSpace).reverse.dropWhile goIsSpace).reverse

/-- Model of Go `strings.TrimSpace`. -/
def goTrimSpace (s : String) : String := ⟨trimSpaceList s.data⟩

/-- Split a character list at the first occurrence of `sep`:
`none` when `sep` does not occur, otherwise the pieces before and after it. -/
def breakOnChar (sep : Char) : List Char → Option (List Char × List Char)
  | [] => none
  | c :: cs =>
    if c = sep then some ([], cs)
    else
      match breakOnChar sep cs with
      | none => none
      | some (a, b) => some (c :: a, b)

/-- Model of Go `strings.SplitN(s, sep, 2)` for a one-character separator:
one element when `sep` is absent, otherwise exactly two. -/
def splitN2Char (s : String) (sep : Char) : List String :=
  match breakOnChar sep s.data with
  | none => [s]
  | some (a, b) => [⟨a⟩, ⟨b⟩]

/-- Model of Go `strings.Split` for a one-character separator
(`splitChar` on the underlying character list). -/
def splitChar (sep : Char) : List Char → List (List Char)
  | [] => [[]]
  | c :: cs =>
    let r := splitChar sep cs
    if c = sep then [] :: r
    else
      match r with
      | [] => [[c]]
      | a :: as => (c :: a) :: as

def goSplitChar (s : String) (sep : Char) : List String :=
  (splitChar sep s.data).map (fun l => ⟨l⟩)

/-- Model of Go `strings.HasPrefix`. -/
def goStartsWith (s p : String) : Bool := p.data.isPrefixOf s.data

/-- Model of Go `strings.TrimPrefix`. -/
def goDropLeading (s p : String) : String :=
  if p.data.isPrefixOf s.data then ⟨s.data.drop p.data.length⟩ else s

/-- Model of Go `strings.Contains`. -/
def listContainsSub (sub : List Char) : List Char → Bool
  | [] => sub.isEmpty
  | c :: cs => sub.isPrefixOf (c :: cs) || listContainsSub sub cs

def goContains (s sub : String) : Bool := listContainsSub sub.data s.data

/-- Model of Go `strings.ToLower`, restricted to ASCII case mapping. -/
def goToLower (s : String) : String := ⟨s.data.map Char.toLower⟩

/-! ### Model of Go `base64.StdEncoding.DecodeString` success.
The decoder ignores `\r` and `\n`, then consumes four-character quanta over
the standard alphabet; `=` padding may appear only as the last one or two
characters of the input. -/

def isB64Char (c : Char) : Bool :=
  ('A' ≤ c && c ≤ 'Z') || ('a' ≤ c && c ≤ 'z') || ('0' ≤ c && c ≤ '9') ||
  c = '+' || c = '/'

def validB64Chunks : List Char → Bool
  | [] => true
  | a :: b :: c :: d :: rest =>
    if rest.isEmpty then
      isB64Char a && isB64Char b &&
        ((isB64Char c && isB64Char d) || (isB64Char c && d = '=') ||
         (c = '=' && d = '='))
    else
      isB64Char a && isB64Char b && isB64Char c && isB64Char d &&
        validB64Chunks rest
  | _ => false

def goBase64Valid (s : String) : Bool :=
  validB64Chunks (s.data.filter (fun c => c ≠ '\r' && c ≠ '\n'))

/-! ### `parseDataURI` (file helpers, `parseDataURI`) -/

/-- Embedding of `parseDataURI`: splits the value at the first comma, checks
the `data:` marker, extracts the MIME type (defaulting to `text/plain`),
requires a `;base64` encoding marker, validates the payload as base64 and
returns the (MIME type, payload) pair with the payload untransformed. -/
def parseDataURI (dataURI : String) : Except String (String × String) :=
  match breakOnChar ',' dataURI.data with
  | none => .error "invalid data URI format: missing comma separator"
  | some (hd, pl) =>
    let header : String := ⟨hd⟩
    let base64Data : String := ⟨pl⟩
    if goStartsWith header "data:" then
      let headerContent := goDropLeading header "data:"
      let encodingParts := splitN2Char headerContent ';'
      let mimeType0 := encodingParts.headD ""
      let mimeType := if mimeType0 = "" then "text/plain" else mimeType0
      let isBase64Encoded : Bool :=
        match encodingParts with
        | [_, enc] => goToLower enc == "base64"
        | _ => false
      if isBase64Encoded then
        if goBase64Valid base64Data then .ok (mimeType, base64Data)
        else .error "invalid base64 data in data URI: illegal data"
      else
        .error "data URI not specified as base64 encoded (e.g., data:image/png;base64,...). Only base64 is supported for file data."
    else .error "invalid data URI format: must start with 'data:'"

/-! ### `parseInputParts` (`main.go`) -/

structure ParsedPart where
  type : String
  value : String
  deriving DecidableEq

def parseInputPairs : List String → Except String (List ParsedPart)
  | [] => .ok []
  | [_] => .ok []  -- unreachable: `parseInputParts` rejects odd lengths first
  | t :: v :: rest =>
    if t ≠ "text" && t ≠ "file" then
      .error ("invalid part type: " ++ t ++ ". Must be 'text' or 'file'")
    else
      match parseInputPairs rest with
      | .error e => .error e
      | .ok ps => .ok (⟨t, v⟩ :: ps)

/-- Embedding of `parseInputParts`: odd-length argument lists are rejected,
then the list is consumed pairwise, each pair requiring a `text`/`file` tag. -/
def parseInputParts (args : List String) : Except String (List ParsedPart) :=
  if args.length % 2 ≠ 0 then
    .error "input parts must be in pairs of type and value (e.g., text \"hello\")"
  else parseInputPairs args

/-- The tag/value pairs flattened back into an argument list (used to state
order and count preservation). -/
def pairsFlatten : List ParsedPart → List String
  | [] => []
  | p :: ps => p.type :: p.value :: pairsFlatten ps

/-! ### Key store (`saveAPIKey` / `loadAPIKey`).
The config file's content is modelled as a JSON value (or unparsable bytes);
`unmarshalConfig` models `encoding/json` unmarshalling into `Config`. -/

structure Config where
  APIKey : String
  deriving DecidableEq

inductive JsonVal where
  | null
  | bool (b : Bool)
  | num (q : Rat)
  | str (s : String)
  | arr (xs : List JsonVal)
  | obj (fields : List (String × JsonVal))

inductive FileContent where
  | jsonContent (j : JsonVal)
  | invalidContent  -- bytes that fail JSON parsing

/-- Field lookup for `json.Unmarshal` into `Config`: keys match the
`api_key` tag case-insensitively and the last occurrence wins. -/
def lookupAPIKeyField : List (String × JsonVal) → Option JsonVal
  | [] => none
  | (k, v) :: rest =>
    match lookupAPIKeyField rest with
    | some v' => some v'
    | none => if goToLower k = "api_key" then some v else none

def unmarshalConfig : JsonVal → Except String Config
  | .obj fields =>
    match lookupAPIKeyField fields with
    | none => .ok ⟨""⟩
    | some (.str s) => .ok ⟨s⟩
    | some .null => .ok ⟨""⟩  -- JSON null leaves the field at its zero value
    | some _ => .error "json: cannot unmarshal value into field Config.api_key of type string"
  | .null => .ok ⟨""⟩
  | _ => .error "json: cannot unmarshal value into value of type main.Config"

/-- Embedding of `saveAPIKey`: overwrites the config file with the JSON
serialization of `Config{APIKey: apiKey}` (previous content irrelevant). -/
def saveAPIKey (apiKey : String) (_file : Option FileContent) : Option FileContent :=
  some (.jsonContent (.obj [("api_key", .str apiKey)]))

/-- Embedding of `loadAPIKey` over the config-file state: missing file,
unparsable content and an empty key field are distinct errors. -/
def loadAPIKey (file : Option FileContent) : Except String String :=
  match file with
  | none => .error "config file not found. Run 'set-config --key YOUR_KEY' first"
  | some .invalidContent => .error "failed to unmarshal config: invalid character"
  | some (.jsonContent j) =>
    match unmarshalConfig j with
    | .error e => .error ("failed to unmarshal config: " ++ e)
    | .ok config =>
      if config.APIKey = "" then
        .error "API key not found in config file. Run 'set-config --key YOUR_KEY'"
      else .ok config.APIKey

/-! ### `makeAPIRequest` response handling (`api.go` lines 113–130).
The transport is abstracted: given a received HTTP response, the function
fails on any status other than 200 with a message carrying the status line
and raw body, and otherwise hands the body on for processing. -/

structure HTTPResponse where
  statusCode : Nat
  status : String
  body : String

def apiResponseResult (resp : HTTPResponse) : Except String String :=
  if resp.statusCode ≠ 200 then
    .error ("API error: " ++ resp.status ++ ", Body: " ++ resp.body)
  else .ok resp.body

/-! ### `handleListModels` classification (handlers file, lines 77–112) -/

structure ModelInfo where
  name : String
  version : String
  displayName : String
  description : String
  inputTokenLimit : Int
  outputTokenLimit : Int
  supportedGenerationMethods : List String

/-- Embedding of the `SupportedForTextOutput` derivation in
`handleListModels`. -/
def textOutputClassification (m : ModelInfo) : String :=
  let supportsGenContent := m.supportedGenerationMethods.contains "generateContent"
  if supportsGenContent then
    let dnLower := goToLower m.displayName
    if goContains dnLower "tts" || goStartsWith dnLower "imagen" ||
        goStartsWith dnLower "veo" || goContains dnLower "embedding" then
      "No (Specialized: Audio/Image/Video/Embedding)"
    else "Yes"
  else "No"

/-- The specialized-name predicate in the order the specification lists it:
display name contains "tts" or "embedding", or starts with "imagen" or
"veo" (after lowercasing). -/
def specSpecializedName (displayName : String) : Bool :=
  goContains (goToLower displayName) "tts" ||
  goContains (goToLower displayName) "embedding" ||
  goStartsWith (goToLower displayName) "imagen" ||
  goStartsWith (goToLower displayName) "veo"

/-! ### Request structures (`api.go`).
Go pointer fields with `omitempty` become `Option`s (presence = field kept in
the JSON body); the two always-empty-object tool pointers become presence
flags. -/

structure TextPart where
  text : String
  deriving DecidableEq

structure InlinePart where
  mimeType : String
  data : String
  deriving DecidableEq

structure Part where
  text : Option String
  inlineData : Option InlinePart
  deriving DecidableEq

structure Content where
  role : String
  parts : List Part
  deriving DecidableEq

structure SystemInstruction where
  parts : List TextPart
  deriving DecidableEq

structure SafetySetting where
  category : String
  threshold : String
  deriving DecidableEq

structure DynamicRetrievalConfig where
  mode : String
  dynamicThreshold : Option Rat
  deriving DecidableEq

structure GoogleSearchRetrievalConfig where
  dynamicRetrievalConfig : Option DynamicRetrievalConfig
  deriving DecidableEq

structure Tool where
  urlContext : Bool          -- presence of the empty `url_context` object
  googleSearch : Bool        -- presence of the empty `google_search` object
  googleSearchRetrieval : Option GoogleSearchRetrievalConfig
  deriving DecidableEq

structure ThinkingConfig where
  thinkingBudget : Option Int
  includeThoughts : Option Bool
  deriving DecidableEq

structure GenerationConfig where
  stopSequences : List String     -- empty list = field omitted
  temperature : Option Rat
  maxOutputTokens : Option Int
  topP : Option Rat
  topK : Option Int
  responseMimeType : Option String
  responseSchema : Option String  -- raw JSON text; `none` = field omitted
  thinkingConfig : Option ThinkingConfig
  deriving DecidableEq

structure GenerateContentRequest where
  systemInstruction : Option SystemInstruction
  contents : List Content
  tools : List Tool
  safetySettings : List SafetySetting
  generationConfig : Option GenerationConfig
  deriving DecidableEq

/-! ### CLI flag bundles (`main.go`) -/

structure GenerationConfigInput where
  temperature : Rat
  maxOutputTokens : Int
  topP : Rat
  topK : Int
  stopSequence : String
  responseMimeType : String
  responseSchemaFileOrJSON : String
  thinkingBudget : Int
  includeThoughts : Bool
  deriving DecidableEq

structure ToolsInput where
  enableURLContext : Bool
  enableGoogleSearch : Bool
  enableGoogleSearchRetrieval : Bool
  googleSearchRetrievalMode : String
  googleSearchRetrievalThreshold : Rat
  deriving DecidableEq

/-! ### File-argument resolution (`processFileArgument`).
Local reads, `file://` reads and HTTP fetches depend on the environment and
are abstracted as an oracle giving the (MIME type, base64 data) a read of the
argument would produce, or the read error; the `data:` branch is the pure
`parseDataURI` above, and an unrecognized value prefix is a format error. -/

def processFileArgument (fileOracle : String → Except String (String × String))
    (arg : String) : Except String (String × String) :=
  if goStartsWith arg "@" then fileOracle arg
  else if goStartsWith arg "file://" then fileOracle arg
  else if goStartsWith arg "http://" || goStartsWith arg "https://" then fileOracle arg
  else if goStartsWith arg "data:" then parseDataURI arg
  else .error ("unsupported file argument format: " ++ arg ++ ". Use @/path, file://, http(s)://, or data:")

/-- Embedding of `readFileOrString`: an `@`-prefixed value is read from the
file (oracle), anything else is taken verbatim. -/
def readFileOrString (readOracle : String → Except String String)
    (pathOrString : String) : Except String String :=
  if goStartsWith pathOrString "@" then
    match readOracle (goDropLeading pathOrString "@") with
    | .error e => .error ("failed to read file '" ++ goDropLeading pathOrString "@" ++ "': " ++ e)
    | .ok d => .ok d
  else .ok pathOrString

/-! ### `buildGenerateContentRequest` (`api.go` lines 133–291) -/

/-- The parts loop (`api.go` lines 150–166): `text` parts pass through,
`file` parts are resolved (errors wrapped naming the argument), anything
else is an internal error; the first failure aborts. -/
def buildParts (fileOracle : String → Except String (String × String)) :
    List ParsedPart → Except String (List Part)
  | [] => .ok []
  | p :: rest =>
    if p.type = "text" then
      match buildParts fileOracle rest with
      | .error e => .error e
      | .ok tail => .ok ({ text := some p.value, inlineData := none } :: tail)
    else if p.type = "file" then
      match processFileArgument fileOracle p.value with
      | .error e => .error ("failed to process file argument '" ++ p.value ++ "': " ++ e)
      | .ok (mt, d) =>
        match buildParts fileOracle rest with
        | .error e => .error e
        | .ok tail => .ok ({ text := none, inlineData := some ⟨mt, d⟩ } :: tail)
    else .error ("unknown parsed part type: " ++ p.type)

/-- The generation-config fields set by the chain of independent
`if ... >= 0` / `!= ""` assignments (`api.go` lines 173–201), field by field;
`responseSchema` and `thinkingConfig` are handled separately. -/
def baseConfig (gi : GenerationConfigInput) : GenerationConfig where
  stopSequences := if gi.stopSequence ≠ "" then [gi.stopSequence] else []
  temperature := if gi.temperature ≥ 0 then some gi.temperature else none
  maxOutputTokens := if gi.maxOutputTokens ≥ 0 then some gi.maxOutputTokens else none
  topP := if gi.topP ≥ 0 then some gi.topP else none
  topK := if gi.topK ≥ 0 then some gi.topK else none
  responseMimeType := if gi.responseMimeType ≠ "" then some gi.responseMimeType else none
  responseSchema := none
  thinkingConfig := none

/-- The `genCfgChanged` flag after the same chain (before schema and thinking). -/
def baseChanged (gi : GenerationConfigInput) : Bool :=
  decide (gi.temperature ≥ 0) || decide (gi.maxOutputTokens ≥ 0) ||
  decide (gi.topP ≥ 0) || decide (gi.topK ≥ 0) ||
  gi.stopSequence ≠ "" || gi.responseMimeType ≠ ""

/-- The thinking sub-config (`api.go` lines 211–227): built only when the
budget is set (`>= 0`) or `includeThoughts` is true. -/
def thinkingCfg (gi : GenerationConfigInput) : Option ThinkingConfig :=
  if decide (gi.thinkingBudget ≥ 0) || gi.includeThoughts then
    some { thinkingBudget := if gi.thinkingBudget ≥ 0 then some gi.thinkingBudget else none
           includeThoughts := if gi.includeThoughts then some true else none }
  else none

/-- The generation-config population (`api.go` lines 172–231): reads the
response schema when requested (wrapping read failures), attaches the
thinking sub-config, and yields `none` when no field was ever set. -/
def mkGenerationConfig (readOracle : String → Except String String)
    (gi : GenerationConfigInput) : Except String (Option GenerationConfig) :=
  let schemaE : Except String (Option String) :=
    if gi.responseSchemaFileOrJSON ≠ "" then
      match readFileOrString readOracle gi.responseSchemaFileOrJSON with
      | .error e => .error ("failed to read response-schema: " ++ e)
      | .ok sc => .ok (some sc)
    else .ok none
  match schemaE with
  | .error e => .error e
  | .ok schemaOpt =>
    let cfg := { baseConfig gi with
                   responseSchema := schemaOpt
                   thinkingConfig := thinkingCfg gi }
    let changed := baseChanged gi || schemaOpt.isSome || (thinkingCfg gi).isSome
    .ok (if changed then some cfg else none)

/-- The tools population (`api.go` lines 233–269): one tool descriptor per
enabled toggle, in declaration order; search-retrieval nests a dynamic
sub-config exactly when its mode or threshold is set. -/
def mkTools (ti : ToolsInput) : List Tool :=
  (if ti.enableURLContext then
    [{ urlContext := true, googleSearch := false, googleSearchRetrieval := none }]
   else []) ++
  (if ti.enableGoogleSearch then
    [{ urlContext := false, googleSearch := true, googleSearchRetrieval := none }]
   else []) ++
  (if ti.enableGoogleSearchRetrieval then
    [{ urlContext := false, googleSearch := false
       googleSearchRetrieval := some
         { dynamicRetrievalConfig :=
             if ti.googleSearchRetrievalMode ≠ "" || decide (ti.googleSearchRetrievalThreshold ≥ 0) then
               some { mode := ti.googleSearchRetrievalMode
                      dynamicThreshold :=
                        if ti.googleSearchRetrievalThreshold ≥ 0 then
                          some ti.googleSearchRetrievalThreshold
                        else none }
             else none } }]
   else [])

/-- The safety-settings loop body (`api.go` lines 273–287) over the
comma-separated entries: each entry is trimmed and split at its first colon;
a two-sided entry with non-empty trimmed sides is kept (in order), a
two-sided entry with an empty side or an unsplittable non-blank entry fails
naming the entry, and a blank entry is skipped. -/
def parseSafetyList : List String → Except String (List SafetySetting)
  | [] => .ok []
  | pair :: rest =>
    match breakOnChar ':' (goTrimSpace pair).data with
    | some (a, b) =>
      let category := goTrimSpace ⟨a⟩
      let threshold := goTrimSpace ⟨b⟩
      if category ≠ "" && threshold ≠ "" then
        match parseSafetyList rest with
        | .error e => .error e
        | .ok tail => .ok (⟨category, threshold⟩ :: tail)
      else .error ("invalid safety setting pair: '" ++ pair ++ "'. Must be CATEGORY:THRESHOLD")
    | none =>
      if goTrimSpace pair ≠ "" then
        .error ("invalid safety setting format: '" ++ pair ++ "'. Must be CATEGORY:THRESHOLD")
      else parseSafetyList rest

/-- Safety-settings parsing as guarded in the source: an empty settings
string contributes nothing. -/
def parseSafetySettings (s : String) : Except String (List SafetySetting) :=
  if s ≠ "" then parseSafetyList (goSplitChar s ',') else .ok []

/-- The validation-error message of `api.go` line 169. -/
def missingInputError : String :=
  "at least one input part or system instruction is required"

/-- The contents stage (`api.go` lines 150–170): exactly one content block
when parts exist, an immediate validation error when neither parts nor a
system instruction are present. -/
def buildContents (fileOracle : String → Except String (String × String))
    (systemInstructionStr : String) (parsedParts : List ParsedPart) :
    Except String (List Content) :=
  if parsedParts.length > 0 then
    match buildParts fileOracle parsedParts with
    | .error e => .error e
    | .ok apiParts => .ok [{ role := "", parts := apiParts }]
  else if systemInstructionStr = "" then .error missingInputError
  else .ok []

/-- Embedding of `buildGenerateContentRequest`: system instruction when
non-empty, exactly one content block when parts exist (failing when neither
parts nor instruction are present), then generation config, tools and safety
settings, each failure aborting in source order. -/
def buildGenerateContentRequest
    (fileOracle : String → Except String (String × String))
    (readOracle : String → Except String String)
    (systemInstructionStr : String) (parsedParts : List ParsedPart)
    (gi : GenerationConfigInput) (ti : ToolsInput)
    (safetySettingsStr : String) : Except String GenerateContentRequest :=
  let sysInstr : Option SystemInstruction :=
    if systemInstructionStr ≠ "" then some ⟨[⟨systemInstructionStr⟩]⟩ else none
  match buildContents fileOracle systemInstructionStr parsedParts with
  | .error e => .error e
  | .ok contents =>
    match mkGenerationConfig readOracle gi with
    | .error e => .error e
    | .ok genCfgOpt =>
      match parseSafetySettings safetySettingsStr with
      | .error e => .error e
      | .ok ss =>
        .ok { systemInstruction := sysInstr
              contents := contents
              tools := mkTools ti
              safetySettings := ss
              generationConfig := genCfgOpt }

/-- Model of the network decision in `handleGenerateContent`: after a build
failure (or the redundant empty-request re-check) the process exits before
`makeAPIRequest`; only a surviving request reaches the network. -/
def generateAttemptsNetworkCall
    (fileOracle : String → Except String (String × String))
    (readOracle : String → Except String String)
    (systemInstructionStr : String) (parsedParts : List ParsedPart)
    (gi : GenerationConfigInput) (ti : ToolsInput)
    (safetySettingsStr : String) : Bool :=
  match buildGenerateContentRequest fileOracle readOracle systemInstructionStr
      parsedParts gi ti safetySettingsStr with
  | .error _ => false
  | .ok req => !(req.contents.isEmpty && req.systemInstruction.isNone)

deriving instance DecidableEq for Except

/-- An entry of the safety-settings string that the loop rejects: after
trimming, it splits at a colon with an empty side, or it has no colon and is
not blank. -/
def badSafetyPair (pair : String) : Bool :=
  match breakOnChar ':' (goTrimSpace pair).data with
  | some (a, b) => goTrimSpace ⟨a⟩ = "" || goTrimSpace ⟨b⟩ = ""
  | none => goTrimSpace pair ≠ ""

/-- First character of a string, used to tell the builder's error messages
apart. -/
def firstChar (s : String) : Option Char := s.data.head?

/-- Oracle for environments where every file/URL read fails. -/
def fileOracleFail : String → Except String (String × String) :=
  fun _ => .error "read unavailable"

def readOracleFail : String → Except String String :=
  fun _ => .error "read unavailable"

/-- All generation parameters at their "unset" sentinels. -/
def giUnset : GenerationConfigInput :=
  { temperature := -1, maxOutputTokens := -1, topP := -1, topK := -1
    stopSequence := "", responseMimeType := "", responseSchemaFileOrJSON := ""
    thinkingBudget := -1, includeThoughts := false }

/-- Generation parameters with exactly temperature 0.7 and topK 40 set. -/
def giTempTopK : GenerationConfigInput :=
  { temperature := 7/10, maxOutputTokens := -1, topP := -1, topK := 40
    stopSequence := "", responseMimeType := "", responseSchemaFileOrJSON := ""
    thinkingBudget := -1, includeThoughts := false }

/-- Generation parameters with only the thinking budget set. -/
def giThink : GenerationConfigInput :=
  { temperature := -1, maxOutputTokens := -1, topP := -1, topK := -1
    stopSequence := "", responseMimeType := "", responseSchemaFileOrJSON := ""
    thinkingBudget := 5, includeThoughts := false }

/-- All tool toggles off. -/
def tiOff : ToolsInput :=
  { enableURLContext := false, enableGoogleSearch := false
    enableGoogleSearchRetrieval := false, googleSearchRetrievalMode := ""
    googleSearchRetrievalThreshold := -1 }

/-! ## Basic string lemmas -/

theorem strDataAppend : ∀ (a b : String), (a ++ b).data = a.data ++ b.data
  | ⟨_⟩, ⟨_⟩ => rfl

theorem strAppendAssoc (a b c : String) : a ++ b ++ c = a ++ (b ++ c) := by
  cases a with
  | mk la =>
    cases b with
    | mk lb =>
      cases c with
      | mk lc => exact congrArg String.mk (List.append_assoc la lb lc)

theorem strAppendNil (a : String) : a ++ "" = a := by
  cases a with
  | mk la => exact congrArg String.mk (List.append_nil la)

theorem firstCharAppend (a b : String) (h : a.data ≠ []) :
    firstChar (a ++ b) = firstChar a := by
  unfold firstChar
  rw [strDataAppend]
  cases ha : a.data with
  | nil => exact absurd ha h
  | cons c cs => rfl

theorem strDataNeNilAppend (a b : String) (h : a.data ≠ []) :
    (a ++ b).data ≠ [] := by
  rw [strDataAppend]
  cases ha : a.data with
  | nil => exact absurd ha h
  | cons c cs => simp

theorem neOfFirstChar {a b : String} (h : firstChar a ≠ firstChar b) : a ≠ b :=
  fun hab => h (by rw [hab])

/-! ## Claim C5: `parseInputParts` -/

theorem parseInputPairs_ok : ∀ (args : List String),
    args.length % 2 = 0 →
    (∀ i : Nat, 2 * i < args.length →
      args.getD (2 * i) "" = "text" ∨ args.getD (2 * i) "" = "file") →
    ∃ ps, parseInputPairs args = .ok ps ∧ ps.length = args.length / 2 ∧
      pairsFlatten ps = args
  | [], _, _ => ⟨[], rfl, rfl, rfl⟩
  | [_], h, _ => by simp at h
  | a :: b :: rest, h, ht => by
    have hrest : rest.length % 2 = 0 := by
      simp only [List.length_cons] at h
      omega
    have hshift : ∀ i : Nat, 2 * i < rest.length →
        rest.getD (2 * i) "" = "text" ∨ rest.getD (2 * i) "" = "file" := by
      intro i hi
      have h2 : 2 * (i + 1) < (a :: b :: rest).length := by
        simp only [List.length_cons]
        omega
      have := ht (i + 1) h2
      have hg : (a :: b :: rest).getD (2 * (i + 1)) "" = rest.getD (2 * i) "" := by
        have : 2 * (i + 1) = 2 * i + 1 + 1 := by omega
        rw [this, List.getD_cons_succ, List.getD_cons_succ]
      rw [hg] at this
      exact this
    obtain ⟨ps, hps, hlen, hflat⟩ := parseInputPairs_ok rest hrest hshift
    have ha : a = "text" ∨ a = "file" := by
      have := ht 0 (by simp only [List.length_cons]; omega)
      simpa using this
    have hcond : (decide (a ≠ "text") && decide (a ≠ "file")) = false := by
      rcases ha with ha | ha <;> simp [ha]
    refine ⟨⟨a, b⟩ :: ps, ?_, ?_, ?_⟩
    · unfold parseInputPairs
      rw [hcond]
      simp only [Bool.false_eq_true, if_false, hps]
    · simp only [List.length_cons, hlen]
      omega
    · simp [pairsFlatten, hflat]

theorem parseInputPairs_bad : ∀ (args : List String) (i : Nat),
    args.length % 2 = 0 → 2 * i < args.length →
    args.getD (2 * i) "" ≠ "text" → args.getD (2 * i) "" ≠ "file" →
    ∃ e, parseInputPairs args = .error e
  | [], _, _, hi, _, _ => by simp at hi
  | [_], _, h, _, _, _ => by simp at h
  | a :: b :: rest, i, h, hi, h1, h2 => by
    by_cases hbad : (decide (a ≠ "text") && decide (a ≠ "file")) = true
    · refine ⟨"invalid part type: " ++ a ++ ". Must be 'text' or 'file'", ?_⟩
      unfold parseInputPairs
      rw [hbad]
      simp
    · have hcond : (decide (a ≠ "text") && decide (a ≠ "file")) = false := by
        revert hbad
        cases (decide (a ≠ "text") && decide (a ≠ "file")) <;> simp
      have hipos : i ≠ 0 := by
        intro h0
        subst h0
        simp only [Nat.mul_zero, List.getD_cons_zero] at h1 h2
        by_cases ht : a = "text"
        · exact h1 ht
        · exact h2 ((by simpa using hbad : ¬a = "text" → a = "file") ht)
      obtain ⟨j, rfl⟩ : ∃ j, i = j + 1 := ⟨i - 1, by omega⟩
      have hrest : rest.length % 2 = 0 := by
        simp only [List.length_cons] at h
        omega
      have hj : 2 * j < rest.length := by
        simp only [List.length_cons] at hi
        omega
      have hg : (a :: b :: rest).getD (2 * (j + 1)) "" = rest.getD (2 * j) "" := by
        have : 2 * (j + 1) = 2 * j + 1 + 1 := by omega
        rw [this, List.getD_cons_succ, List.getD_cons_succ]
      rw [hg] at h1 h2
      obtain ⟨e, he⟩ := parseInputPairs_bad rest j hrest hj h1 h2
      refine ⟨e, ?_⟩
      unfold parseInputPairs
      rw [hcond]
      simp only [Bool.false_eq_true, if_false, he]

/-- C5: for even-length argument lists whose even-indexed entries are all
`text` or `file`, `parseInputParts` succeeds with one (type, value) pair per
argument pair, preserving order and count (flattening the pairs restores the
argument list, and the count is half the argument count); odd-length lists
fail; and any unrecognized type token at an even index makes parsing fail. -/
theorem parseInputPartsSpec :
    (∀ args : List String, args.length % 2 = 0 →
      (∀ i : Nat, 2 * i < args.length →
        args.getD (2 * i) "" = "text" ∨ args.getD (2 * i) "" = "file") →
      ∃ ps, parseInputParts args = .ok ps ∧ ps.length = args.length / 2 ∧
        pairsFlatten ps = args) ∧
    (∀ args : List String, args.length % 2 = 1 →
      parseInputParts args =
        .error "input parts must be in pairs of type and value (e.g., text \"hello\")") ∧
    (∀ args : List String, args.length % 2 = 0 →
      (∃ i : Nat, 2 * i < args.length ∧ args.getD (2 * i) "" ≠ "text" ∧
        args.getD (2 * i) "" ≠ "file") →
      ∃ e, parseInputParts args = .error e) := by
  refine ⟨?_, ?_, ?_⟩
  · intro args heven ht
    obtain ⟨ps, hps, hlen, hflat⟩ := parseInputPairs_ok args heven ht
    refine ⟨ps, ?_, hlen, hflat⟩
    unfold parseInputParts
    rw [if_neg (by omega)]
    exact hps
  · intro args hodd
    unfold parseInputParts
    rw [if_pos (by omega)]
  · intro args heven ⟨i, hi, h1, h2⟩
    obtain ⟨e, he⟩ := parseInputPairs_bad args i heven hi h1 h2
    refine ⟨e, ?_⟩
    unfold parseInputParts
    rw [if_neg (by omega)]
    exact he

/-- C5 witness: the general theorem applied at concrete argument lists. -/
theorem parseInputPartsSpecWitness :
    (∃ ps, parseInputParts ["text", "a", "file", "b"] = .ok ps ∧
      ps.length = 2 ∧ pairsFlatten ps = ["text", "a", "file", "b"]) ∧
    parseInputParts ["text"] =
      .error "input parts must be in pairs of type and value (e.g., text \"hello\")" ∧
    (∃ e, parseInputParts ["text", "a", "blob", "b"] = .error e) := by
  refine ⟨?_, ?_, ?_⟩
  · exact parseInputPartsSpec.1 ["text", "a", "file", "b"] (by decide)
      (fun i hi => by
        match i with
        | 0 => exact Or.inl rfl
        | 1 => exact Or.inr rfl
        | n + 2 => simp only [List.length_cons, List.length_nil] at hi; omega)
  · exact parseInputPartsSpec.2.1 ["text"] (by decide)
  · exact parseInputPartsSpec.2.2 ["text", "a", "blob", "b"] (by decide)
      ⟨1, by decide, by decide, by decide⟩

/-! ## Claim C6: key store round trip -/

/-- C6 counterexample: the claim quantifies over every key string, but
saving the empty key and loading it back fails (the loader rejects an empty
`api_key` field), so save-then-load does not return the stored string for
`""`. -/
theorem saveLoadEmptyKeyFails :
    loadAPIKey (saveAPIKey "" none) =
      .error "API key not found in config file. Run 'set-config --key YOUR_KEY'" := by
  decide

/-- C6 (amended): for every non-empty key string, saving the key and then
loading it (with no intervening writes) succeeds and returns the identical
string. -/
theorem saveThenLoadRoundTrip (k : String) (fs : Option FileContent)
    (hk : k ≠ "") : loadAPIKey (saveAPIKey k fs) = .ok k := by
  have hlow : goToLower "api_key" = "api_key" := by decide
  simp [saveAPIKey, loadAPIKey, unmarshalConfig, lookupAPIKeyField, hlow, hk]

/-- C6 witness: the amended round trip at a concrete non-empty key. -/
theorem saveThenLoadRoundTripWitness :
    loadAPIKey (saveAPIKey "my-key" none) = .ok "my-key" :=
  saveThenLoadRoundTrip "my-key" none (by decide)

/-! ## Claim C10: a successfully loaded key is never empty -/

/-- C10: for every config-file content, `loadAPIKey` returns an error or a
non-empty key string: it never succeeds with the empty string. -/
theorem loadAPIKeyNonEmpty (fs : Option FileContent) (k : String)
    (h : loadAPIKey fs = .ok k) : k ≠ "" := by
  cases fs with
  | none => simp [loadAPIKey] at h
  | some fc =>
    cases fc with
    | invalidContent => simp [loadAPIKey] at h
    | jsonContent j =>
      simp only [loadAPIKey] at h
      cases hu : unmarshalConfig j with
      | error e => simp only [hu] at h; exact absurd h (by simp)
      | ok cfg =>
        simp only [hu] at h
        by_cases hk : cfg.APIKey = ""
        · rw [if_pos hk] at h
          simp at h
        · rw [if_neg hk] at h
          have : cfg.APIKey = k := by
            injection h
          rw [← this]
          exact hk

/-- C10 witness: the theorem applied at a concrete config-file content. -/
theorem loadAPIKeyNonEmptyWitness :
    loadAPIKey (some (.jsonContent (.obj [("api_key", .str "abc")]))) = .ok "abc" ∧
    ("abc" : String) ≠ "" :=
  ⟨by decide,
   loadAPIKeyNonEmpty (some (.jsonContent (.obj [("api_key", .str "abc")]))) "abc" (by decide)⟩

/-! ## Claims C8/C9: `makeAPIRequest` status handling -/

/-- C8: every received HTTP response with a non-2xx status makes the call
fail, and the error message contains both the response status line and the
raw response body. -/
theorem apiErrorCarriesStatusAndBody (resp : HTTPResponse)
    (h : resp.statusCode < 200 ∨ 300 ≤ resp.statusCode) :
    ∃ e, apiResponseResult resp = .error e ∧
      (∃ p q, e = p ++ resp.status ++ q) ∧
      (∃ p q, e = p ++ resp.body ++ q) := by
  refine ⟨"API error: " ++ resp.status ++ ", Body: " ++ resp.body, ?_, ?_, ?_⟩
  · unfold apiResponseResult
    rw [if_pos (by omega)]
  · exact ⟨"API error: ", ", Body: " ++ resp.body, by rw [strAppendAssoc]⟩
  · exact ⟨"API error: " ++ resp.status ++ ", Body: ", "", by rw [strAppendNil]⟩

/-- C8 witness: a concrete 404 response fails with status and body in the
message. -/
theorem apiErrorCarriesStatusAndBodyWitness :
    ∃ e, apiResponseResult ⟨404, "404 Not Found", "error body text"⟩ = .error e ∧
      (∃ p q, e = p ++ "404 Not Found" ++ q) ∧
      (∃ p q, e = p ++ "error body text" ++ q) :=
  apiErrorCarriesStatusAndBody ⟨404, "404 Not Found", "error body text"⟩ (Or.inr (by decide))

/-- C9: `makeAPIRequest` treats exactly status 200 as success — any other
status code (including success-class codes such as 201 or 204) yields an API
error, and status 200 hands the raw body on for processing. -/
theorem apiRequiresStatus200 :
    (∀ resp : HTTPResponse, resp.statusCode ≠ 200 →
      apiResponseResult resp =
        .error ("API error: " ++ resp.status ++ ", Body: " ++ resp.body)) ∧
    (∀ resp : HTTPResponse, resp.statusCode = 200 →
      apiResponseResult resp = .ok resp.body) := by
  constructor
  · intro resp hne
    unfold apiResponseResult
    rw [if_pos hne]
  · intro resp heq
    unfold apiResponseResult
    rw [if_neg (by omega)]

/-- C9 witness: concrete 201 and 204 responses fail; a 200 response
succeeds. -/
theorem apiRequiresStatus200Witness :
    apiResponseResult ⟨201, "201 Created", "b1"⟩ =
      .error ("API error: " ++ "201 Created" ++ ", Body: " ++ "b1") ∧
    apiResponseResult ⟨204, "204 No Content", "b2"⟩ =
      .error ("API error: " ++ "204 No Content" ++ ", Body: " ++ "b2") ∧
    apiResponseResult ⟨200, "200 OK", "b3"⟩ = .ok "b3" :=
  ⟨apiRequiresStatus200.1 ⟨201, "201 Created", "b1"⟩ (by decide),
   apiRequiresStatus200.1 ⟨204, "204 No Content", "b2"⟩ (by decide),
   apiRequiresStatus200.2 ⟨200, "200 OK", "b3"⟩ rfl⟩

/-! ## Claim C7: list-models text-output classification -/

/-- C7: the derived classification is "No" without the `generateContent`
method; otherwise "Yes", downgraded to the specialized negative case exactly
when the lower-cased display name contains "tts" or "embedding" or starts
with "imagen" or "veo"; in particular "Imagen 3" (with content generation)
is specialized and "Gemini 2.5 Pro" is "Yes". -/
theorem textOutputClassificationSpec :
    (∀ m : ModelInfo,
      textOutputClassification m =
        if m.supportedGenerationMethods.contains "generateContent" then
          if specSpecializedName m.displayName then
            "No (Specialized: Audio/Image/Video/Embedding)"
          else "Yes"
        else "No") ∧
    textOutputClassification
      { name := "models/imagen-3.0", version := "1", displayName := "Imagen 3"
        description := "", inputTokenLimit := 0, outputTokenLimit := 0
        supportedGenerationMethods := ["generateContent"] } =
      "No (Specialized: Audio/Image/Video/Embedding)" ∧
    textOutputClassification
      { name := "models/gemini-2.5-pro", version := "1"
        displayName := "Gemini 2.5 Pro", description := ""
        inputTokenLimit := 0, outputTokenLimit := 0
        supportedGenerationMethods := ["generateContent"] } = "Yes" := by
  refine ⟨?_, by decide, by decide⟩
  intro m
  unfold textOutputClassification specSpecializedName
  cases m.supportedGenerationMethods.contains "generateContent"
  · simp
  · simp only [if_true]
    cases h1 : goContains (goToLower m.displayName) "tts" <;>
      cases h2 : goStartsWith (goToLower m.displayName) "imagen" <;>
        cases h3 : goStartsWith (goToLower m.displayName) "veo" <;>
          cases h4 : goContains (goToLower m.displayName) "embedding" <;>
            simp [h1, h2, h3, h4]

/-! ## Claim C4: `parseDataURI` -/

/-- C4: parsing `data:image/png;base64,aGVsbG8=` yields MIME `image/png`
with the payload unchanged; `data:;base64,aGVsbG8=` defaults to
`text/plain`; a data URI whose header does not carry a `;base64` marker is
rejected; a payload that is not well-formed standard base64 is rejected;
and an accepted payload is returned verbatim (it is exactly the text after
the first comma). -/
theorem parseDataURISpec :
    parseDataURI "data:image/png;base64,aGVsbG8=" = .ok ("image/png", "aGVsbG8=") ∧
    parseDataURI "data:;base64,aGVsbG8=" = .ok ("text/plain", "aGVsbG8=") ∧
    (∀ uri : String, ∀ hd pl : List Char,
      breakOnChar ',' uri.data = some (hd, pl) →
      (∀ mt enc : String,
        splitN2Char (goDropLeading ⟨hd⟩ "data:") ';' = [mt, enc] →
        goToLower enc ≠ "base64") →
      ∃ e, parseDataURI uri = .error e) ∧
    (∀ uri : String, ∀ hd pl : List Char,
      breakOnChar ',' uri.data = some (hd, pl) →
      goBase64Valid ⟨pl⟩ = false →
      ∃ e, parseDataURI uri = .error e) ∧
    (∀ uri mt d : String, parseDataURI uri = .ok (mt, d) →
      ∃ hd, breakOnChar ',' uri.data = some (hd, d.data)) := by
  refine ⟨by decide, by decide, ?_, ?_, ?_⟩
  · intro uri hd pl hsplit hnb
    unfold parseDataURI
    simp only [hsplit]
    by_cases hdp : goStartsWith ⟨hd⟩ "data:" = true
    · cases hsp : splitN2Char (goDropLeading ⟨hd⟩ "data:") ';' with
      | nil => simp [hdp, hsp]
      | cons mt rest =>
        cases rest with
        | nil => simp [hdp, hsp]
        | cons enc rest2 =>
          cases rest2 with
          | nil =>
            have hne : goToLower enc ≠ "base64" := hnb mt enc hsp
            simp [hdp, hsp, hne]
          | cons c cs => simp [hdp, hsp]
    · simp [hdp]
  · intro uri hd pl hsplit hb
    unfold parseDataURI
    simp only [hsplit]
    by_cases hdp : goStartsWith ⟨hd⟩ "data:" = true
    · cases hsp : splitN2Char (goDropLeading ⟨hd⟩ "data:") ';' with
      | nil => simp [hdp, hsp]
      | cons mt rest =>
        cases rest with
        | nil => simp [hdp, hsp]
        | cons enc rest2 =>
          cases rest2 with
          | nil =>
            cases he : (goToLower enc == "base64")
            · simp [hdp, hsp, he]
            · simp [hdp, hsp, he, hb]
          | cons c cs => simp [hdp, hsp]
    · simp [hdp]
  · intro uri mt d h
    unfold parseDataURI at h
    cases hsplit : breakOnChar ',' uri.data with
    | none => simp [hsplit] at h
    | some hp =>
      obtain ⟨hd, pl⟩ := hp
      simp only [hsplit] at h
      by_cases hdp : goStartsWith ⟨hd⟩ "data:" = true
      · cases hsp : splitN2Char (goDropLeading ⟨hd⟩ "data:") ';' with
        | nil => simp [hdp, hsp] at h
        | cons mt0 rest =>
          cases rest with
          | nil => simp [hdp, hsp] at h
          | cons enc rest2 =>
            cases rest2 with
            | nil =>
              cases he : (goToLower enc == "base64")
              · simp [hdp, hsp, he] at h
              · cases hv : goBase64Valid ⟨pl⟩
                · simp [hdp, hsp, he, hv] at h
                · simp [hdp, hsp, he, hv] at h
                  refine ⟨hd, ?_⟩
                  rw [← h.2]
            | cons c cs => simp [hdp, hsp] at h
      · simp [hdp] at h

/-- C4 witness: the rejection conjuncts applied at concrete inputs (a header
without `;base64`, and an ill-formed base64 payload). -/
theorem parseDataURISpecWitness :
    (∃ e, parseDataURI "data:image/png,aGVsbG8=" = .error e) ∧
    (∃ e, parseDataURI "data:image/png;base64,!!!" = .error e) ∧
    (∃ hd, breakOnChar ',' ("data:image/png;base64,aGVsbG8=" : String).data =
      some (hd, ("aGVsbG8=" : String).data)) := by
  refine ⟨?_, ?_, ?_⟩
  · exact parseDataURISpec.2.2.1 "data:image/png,aGVsbG8="
      ("data:image/png" : String).data ("aGVsbG8=" : String).data
      (by decide) (fun mt enc hsp => by
        have hl := congrArg List.length hsp
        simp only [List.length_cons, List.length_nil] at hl
        exact absurd hl (by decide))
  · exact parseDataURISpec.2.2.2.1 "data:image/png;base64,!!!"
      ("data:image/png;base64" : String).data ("!!!" : String).data
      (by decide) (by decide)
  · exact parseDataURISpec.2.2.2.2 "data:image/png;base64,aGVsbG8="
      "image/png" "aGVsbG8=" (by decide)

/-! ## Claim C3: safety-settings parsing -/

theorem parseSafetyList_bad : ∀ (l : List String) (pair : String),
    pair ∈ l → badSafetyPair pair = true →
    ∃ pb p q, pb ∈ l ∧ badSafetyPair pb = true ∧
      parseSafetyList l = .error (p ++ pb ++ q)
  | [], pair, hmem, _ => absurd hmem (List.not_mem_nil pair)
  | hd :: rest, pair, hmem, hbad => by
    by_cases hhead : badSafetyPair hd = true
    · unfold badSafetyPair at hhead
      cases hm : breakOnChar ':' (goTrimSpace hd).data with
      | some ab =>
        obtain ⟨a, b⟩ := ab
        rw [hm] at hhead
        have hcond : ¬(goTrimSpace ⟨a⟩ ≠ "" ∧ goTrimSpace ⟨b⟩ ≠ "") := by
          rcases (by simpa using hhead : goTrimSpace ⟨a⟩ = "" ∨ goTrimSpace ⟨b⟩ = "") with
            h | h <;> simp [h]
        refine ⟨hd, "invalid safety setting pair: '",
          "'. Must be CATEGORY:THRESHOLD", List.mem_cons_self hd rest, ?_, ?_⟩
        · unfold badSafetyPair
          rw [hm]
          exact hhead
        · unfold parseSafetyList
          simp only [hm]
          rw [if_neg (by simpa using hcond)]
      | none =>
        rw [hm] at hhead
        refine ⟨hd, "invalid safety setting format: '",
          "'. Must be CATEGORY:THRESHOLD", List.mem_cons_self hd rest, ?_, ?_⟩
        · unfold badSafetyPair
          rw [hm]
          exact hhead
        · unfold parseSafetyList
          simp only [hm]
          rw [if_pos (by simpa using hhead)]
    · have hmem' : pair ∈ rest := by
        rcases List.mem_cons.mp hmem with heq | h
        · exact absurd (heq ▸ hbad) hhead
        · exact h
      obtain ⟨pb, p, q, hpb, hpbbad, herr⟩ := parseSafetyList_bad rest pair hmem' hbad
      refine ⟨pb, p, q, List.mem_cons_of_mem hd hpb, hpbbad, ?_⟩
      unfold badSafetyPair at hhead
      cases hm : breakOnChar ':' (goTrimSpace hd).data with
      | some ab =>
        obtain ⟨a, b⟩ := ab
        rw [hm] at hhead
        have hcond : goTrimSpace ⟨a⟩ ≠ "" ∧ goTrimSpace ⟨b⟩ ≠ "" := by
          by_cases h1 : goTrimSpace ⟨a⟩ = "" <;> by_cases h2 : goTrimSpace ⟨b⟩ = "" <;>
            simp [h1, h2] at hhead ⊢
        unfold parseSafetyList
        simp only [hm]
        rw [if_pos (by simpa using hcond)]
        rw [herr]
      | none =>
        rw [hm] at hhead
        have hblank : ¬goTrimSpace hd ≠ "" := by simpa using hhead
        unfold parseSafetyList
        simp only [hm]
        rw [if_neg (by simpa using hblank)]
        exact herr

/-- C3: the safety-settings string is split on commas, each trimmed entry on
its first colon; an empty settings string yields no overrides; the concrete
two-pair string yields exactly its two overrides in order with trimmed
sides; `"BAD_PAIR"` fails; any entry with an empty category or threshold
after trimming (or a non-blank entry without a colon) makes parsing fail
with a format error naming an offending entry; and a successful build
carries exactly the parsed overrides. -/
theorem safetySettingsSpec :
    parseSafetySettings "" = .ok [] ∧
    parseSafetySettings
        "HARM_CATEGORY_HARASSMENT:BLOCK_ONLY_HIGH,HARM_CATEGORY_HATE_SPEECH:BLOCK_MEDIUM_AND_ABOVE" =
      .ok [⟨"HARM_CATEGORY_HARASSMENT", "BLOCK_ONLY_HIGH"⟩,
           ⟨"HARM_CATEGORY_HATE_SPEECH", "BLOCK_MEDIUM_AND_ABOVE"⟩] ∧
    (∃ e, parseSafetySettings "BAD_PAIR" = .error e) ∧
    (∀ s pair : String, pair ∈ goSplitChar s ',' → badSafetyPair pair = true →
      ∃ pb p q, pb ∈ goSplitChar s ',' ∧ badSafetyPair pb = true ∧
        parseSafetySettings s = .error (p ++ pb ++ q)) ∧
    (∀ fo ro sys parts gi ti ss req,
      buildGenerateContentRequest fo ro sys parts gi ti ss = .ok req →
      parseSafetySettings ss = .ok req.safetySettings) := by
  refine ⟨by decide, by decide,
    ⟨"invalid safety setting format: 'BAD_PAIR'. Must be CATEGORY:THRESHOLD", by decide⟩, ?_, ?_⟩
  · intro s pair hmem hbad
    have hs : s ≠ "" := by
      intro h0
      subst h0
      have hsp : goSplitChar "" ',' = [""] := by decide
      rw [hsp] at hmem
      have : pair = "" := by simpa using hmem
      subst this
      exact absurd hbad (by decide)
    unfold parseSafetySettings
    rw [if_pos hs]
    exact parseSafetyList_bad (goSplitChar s ',') pair hmem hbad
  · intro fo ro sys parts gi ti ss req h
    unfold buildGenerateContentRequest at h
    cases hc : buildContents fo sys parts with
    | error e => simp only [hc] at h; simp at h
    | ok contents =>
      simp only [hc] at h
      cases hg : mkGenerationConfig ro gi with
      | error e => simp only [hg] at h; simp at h
      | ok gOpt =>
        simp only [hg] at h
        cases hss : parseSafetySettings ss with
        | error e => simp only [hss] at h; simp at h
        | ok ssList =>
          simp only [hss] at h
          injection h with h2
          rw [← h2]

/-- C3 witness: the failure conjunct applied at a concrete bad entry, and
the build bridge applied at a concrete successful build. -/
theorem safetySettingsSpecWitness :
    (∃ pb p q, pb ∈ goSplitChar "a:b,:x" ',' ∧ badSafetyPair pb = true ∧
      parseSafetySettings "a:b,:x" = .error (p ++ pb ++ q)) ∧
    parseSafetySettings "a:b" = .ok [⟨"a", "b"⟩] := by
  constructor
  · exact safetySettingsSpec.2.2.2.1 "a:b,:x" ":x"
      (by decide) (by decide)
  · exact safetySettingsSpec.2.2.2.2 fileOracleFail readOracleFail ""
      [⟨"text", "hi"⟩] giUnset tiOff "a:b"
      { systemInstruction := none
        contents := [{ role := "", parts := [{ text := some "hi", inlineData := none }] }]
        tools := [], safetySettings := [⟨"a", "b"⟩], generationConfig := none }
      (by decide)

/-! ## Claim C2: generation-config block -/

theorem build_ok_genCfg (fo : String → Except String (String × String))
    (ro : String → Except String String) (sys : String) (parts : List ParsedPart)
    (gi : GenerationConfigInput) (ti : ToolsInput) (ss : String)
    (req : GenerateContentRequest)
    (h : buildGenerateContentRequest fo ro sys parts gi ti ss = .ok req) :
    mkGenerationConfig ro gi = .ok req.generationConfig := by
  unfold buildGenerateContentRequest at h
  cases hc : buildContents fo sys parts with
  | error e => simp only [hc] at h; simp at h
  | ok contents =>
    simp only [hc] at h
    cases hg : mkGenerationConfig ro gi with
    | error e => simp only [hg] at h; simp at h
    | ok gOpt =>
      simp only [hg] at h
      cases hss : parseSafetySettings ss with
      | error e => simp only [hss] at h; simp at h
      | ok ssList =>
        simp only [hss] at h
        injection h with h2
        rw [← h2]

theorem thinkingCfg_isSome (gi : GenerationConfigInput) :
    (thinkingCfg gi).isSome = (decide (gi.thinkingBudget ≥ 0) || gi.includeThoughts) := by
  unfold thinkingCfg
  split
  next h => simp only [Option.isSome_some, h]
  next h =>
    simp only [Bool.not_eq_true] at h
    simp only [Option.isSome_none, h]

theorem mkGenerationConfig_unset (ro : String → Except String String)
    (gi : GenerationConfigInput)
    (h1 : gi.temperature < 0) (h2 : gi.maxOutputTokens < 0) (h3 : gi.topP < 0)
    (h4 : gi.topK < 0) (h5 : gi.thinkingBudget < 0) (h6 : gi.stopSequence = "")
    (h7 : gi.responseMimeType = "") (h8 : gi.responseSchemaFileOrJSON = "")
    (h9 : gi.includeThoughts = false) :
    mkGenerationConfig ro gi = .ok none := by
  have hb : baseChanged gi = false := by
    simp [baseChanged, h6, h7, not_le.mpr h1, not_le.mpr h2, not_le.mpr h3, not_le.mpr h4]
  have ht : thinkingCfg gi = none := by
    simp [thinkingCfg, h9, not_le.mpr h5]
  simp [mkGenerationConfig, h8, hb, ht]

theorem mkGenerationConfig_tempTopK (ro : String → Except String String)
    (gi : GenerationConfigInput)
    (h1 : gi.temperature = 7/10) (h4 : gi.topK = 40)
    (h2 : gi.maxOutputTokens < 0) (h3 : gi.topP < 0)
    (h5 : gi.thinkingBudget < 0) (h6 : gi.stopSequence = "")
    (h7 : gi.responseMimeType = "") (h8 : gi.responseSchemaFileOrJSON = "")
    (h9 : gi.includeThoughts = false) :
    mkGenerationConfig ro gi = .ok (some
      { stopSequences := [], temperature := some (7/10), maxOutputTokens := none
        topP := none, topK := some 40, responseMimeType := none
        responseSchema := none, thinkingConfig := none }) := by
  have ht : thinkingCfg gi = none := by
    simp [thinkingCfg, h9, not_le.mpr h5]
  have e1 : (7 : Rat)/10 ≥ 0 := by norm_num
  have e2 : (40 : Int) ≥ 0 := by norm_num
  have hbase : baseConfig gi =
      { stopSequences := [], temperature := some (7/10), maxOutputTokens := none
        topP := none, topK := some 40, responseMimeType := none
        responseSchema := none, thinkingConfig := none } := by
    simp [baseConfig, h1, h4, h6, h7, not_le.mpr h2, not_le.mpr h3, e1, e2]
  have hch : baseChanged gi = true := by
    simp [baseChanged, h1, e1]
  simp [mkGenerationConfig, h8, hbase, hch, ht]

theorem mkGenerationConfig_thinking (ro : String → Except String String)
    (gi : GenerationConfigInput) (gOpt : Option GenerationConfig)
    (h : mkGenerationConfig ro gi = .ok gOpt) :
    (∃ g, gOpt = some g ∧ g.thinkingConfig.isSome = true) ↔
      (0 ≤ gi.thinkingBudget ∨ gi.includeThoughts = true) := by
  have hiff : ((thinkingCfg gi).isSome = true) ↔
      (0 ≤ gi.thinkingBudget ∨ gi.includeThoughts = true) := by
    rw [thinkingCfg_isSome]
    simp [ge_iff_le]
  rw [← hiff]
  simp only [mkGenerationConfig] at h
  by_cases hrs : gi.responseSchemaFileOrJSON ≠ ""
  · rw [if_pos hrs] at h
    cases hr : readFileOrString ro gi.responseSchemaFileOrJSON with
    | error e => simp only [hr] at h; simp at h
    | ok sc =>
      simp only [hr] at h
      injection h with h2
      subst h2
      simp only [Option.isSome_some, Bool.or_true, Bool.true_or, if_true]
      constructor
      · rintro ⟨g, hg, hth⟩
        injection hg with hg'
        rw [← hg'] at hth
        exact hth
      · intro hth
        exact ⟨_, rfl, hth⟩
  · rw [if_neg hrs] at h
    injection h with h2
    subst h2
    simp only [Option.isSome_none, Bool.or_false]
    cases hth : (thinkingCfg gi).isSome with
    | true =>
      simp only [hth, Bool.or_true, if_true]
      exact ⟨fun _ => trivial, fun _ => ⟨_, rfl, hth⟩⟩
    | false =>
      simp only [hth, Bool.or_false]
      cases hbc : baseChanged gi with
      | true =>
        simp only [hbc, if_true]
        constructor
        · rintro ⟨g, hg, hth2⟩
          injection hg with hg'
          rw [← hg'] at hth2
          have hx : (thinkingCfg gi).isSome = true := hth2
          rw [hth] at hx
          exact hx
        · intro hft
          exact absurd hft (by simp)
      | false =>
        simp only [hbc, Bool.false_eq_true, if_false]
        constructor
        · rintro ⟨g, hg, _⟩
          exact absurd hg (by simp)
        · intro hft
          exact absurd hft (by simp)

/-- C2: for a successfully built request, (i) with every generation
parameter at its "unset" sentinel the request carries no generation-config
block at all; (ii) with exactly `temperature = 0.7` and `topK = 40` set the
block carries exactly those two fields; (iii) the thinking sub-block is
present inside the generation block iff the thinking budget is non-negative
or `includeThoughts` is true. -/
theorem generationConfigBlockSpec (fo : String → Except String (String × String))
    (ro : String → Except String String) (sys : String) (parts : List ParsedPart)
    (ti : ToolsInput) (ss : String) (gi : GenerationConfigInput)
    (req : GenerateContentRequest)
    (h : buildGenerateContentRequest fo ro sys parts gi ti ss = .ok req) :
    ((gi.temperature < 0 ∧ gi.maxOutputTokens < 0 ∧ gi.topP < 0 ∧ gi.topK < 0 ∧
      gi.thinkingBudget < 0 ∧ gi.stopSequence = "" ∧ gi.responseMimeType = "" ∧
      gi.responseSchemaFileOrJSON = "" ∧ gi.includeThoughts = false) →
      req.generationConfig = none) ∧
    ((gi.temperature = 7/10 ∧ gi.topK = 40 ∧ gi.maxOutputTokens < 0 ∧ gi.topP < 0 ∧
      gi.thinkingBudget < 0 ∧ gi.stopSequence = "" ∧ gi.responseMimeType = "" ∧
      gi.responseSchemaFileOrJSON = "" ∧ gi.includeThoughts = false) →
      req.generationConfig = some
        { stopSequences := [], temperature := some (7/10), maxOutputTokens := none
          topP := none, topK := some 40, responseMimeType := none
          responseSchema := none, thinkingConfig := none }) ∧
    ((∃ g, req.generationConfig = some g ∧ g.thinkingConfig.isSome = true) ↔
      (0 ≤ gi.thinkingBudget ∨ gi.includeThoughts = true)) := by
  have hmk := build_ok_genCfg fo ro sys parts gi ti ss req h
  refine ⟨?_, ?_, ?_⟩
  · rintro ⟨h1, h2, h3, h4, h5, h6, h7, h8, h9⟩
    have hu := mkGenerationConfig_unset ro gi h1 h2 h3 h4 h5 h6 h7 h8 h9
    rw [hmk] at hu
    injection hu
  · rintro ⟨h1, h4, h2, h3, h5, h6, h7, h8, h9⟩
    have hu := mkGenerationConfig_tempTopK ro gi h1 h4 h2 h3 h5 h6 h7 h8 h9
    rw [hmk] at hu
    injection hu
  · exact mkGenerationConfig_thinking ro gi req.generationConfig hmk

/-- C2 witness: the three conjuncts applied at concrete builds (all-unset
parameters, temperature 0.7 with topK 40, and a set thinking budget). -/
theorem generationConfigBlockSpecWitness :
    ({ systemInstruction := none
       contents := [{ role := "", parts := [{ text := some "hi", inlineData := none }] }]
       tools := [], safetySettings := [], generationConfig := none } :
        GenerateContentRequest).generationConfig = none ∧
    ({ systemInstruction := none
       contents := [{ role := "", parts := [{ text := some "hi", inlineData := none }] }]
       tools := [], safetySettings := []
       generationConfig := some
         { stopSequences := [], temperature := some (7/10), maxOutputTokens := none
           topP := none, topK := some 40, responseMimeType := none
           responseSchema := none, thinkingConfig := none } } :
        GenerateContentRequest).generationConfig = some
      { stopSequences := [], temperature := some (7/10), maxOutputTokens := none
        topP := none, topK := some 40, responseMimeType := none
        responseSchema := none, thinkingConfig := none } ∧
    (0 ≤ giThink.thinkingBudget ∨ giThink.includeThoughts = true) := by
  refine ⟨?_, ?_, ?_⟩
  · exact (generationConfigBlockSpec fileOracleFail readOracleFail ""
      [⟨"text", "hi"⟩] tiOff "" giUnset _ (by decide)).1
      (by refine ⟨?_, ?_, ?_, ?_, ?_, rfl, rfl, rfl, rfl⟩ <;> decide)
  · have hmk := mkGenerationConfig_tempTopK readOracleFail giTempTopK rfl rfl
      (by decide) (by norm_num [giTempTopK]) (by decide) rfl rfl rfl rfl
    have hc : buildContents fileOracleFail "" [⟨"text", "hi"⟩] =
        .ok [{ role := "", parts := [{ text := some "hi", inlineData := none }] }] := by
      decide
    have hs : parseSafetySettings "" = .ok [] := by decide
    have hbuild : buildGenerateContentRequest fileOracleFail readOracleFail ""
        [⟨"text", "hi"⟩] giTempTopK tiOff "" = .ok
        { systemInstruction := none
          contents := [{ role := "", parts := [{ text := some "hi", inlineData := none }] }]
          tools := [], safetySettings := []
          generationConfig := some
            { stopSequences := [], temperature := some (7/10), maxOutputTokens := none
              topP := none, topK := some 40, responseMimeType := none
              responseSchema := none, thinkingConfig := none } } := by
      simp only [buildGenerateContentRequest, hc, hmk, hs]
      rfl
    exact (generationConfigBlockSpec fileOracleFail readOracleFail ""
      [⟨"text", "hi"⟩] tiOff "" giTempTopK _ hbuild).2.1
      ⟨rfl, rfl, by decide, by norm_num [giTempTopK], by decide, rfl, rfl, rfl, rfl⟩
  · exact (generationConfigBlockSpec fileOracleFail readOracleFail ""
      [⟨"text", "hi"⟩] tiOff "" giThink
      { systemInstruction := none
        contents := [{ role := "", parts := [{ text := some "hi", inlineData := none }] }]
        tools := [], safetySettings := []
        generationConfig := some
          { stopSequences := [], temperature := none, maxOutputTokens := none
            topP := none, topK := none, responseMimeType := none
            responseSchema := none
            thinkingConfig := some { thinkingBudget := some 5, includeThoughts := none } } }
      (by decide)).2.2.mp ⟨_, rfl, rfl⟩

/-! ## Claim C1: the empty-request validation check -/

theorem buildParts_error_firstChar (fo : String → Except String (String × String)) :
    ∀ (ps : List ParsedPart) (e : String),
    buildParts fo ps = .error e → firstChar e = some 'f' ∨ firstChar e = some 'u'
  | [], e, h => by simp [buildParts] at h
  | p :: rest, e, h => by
    unfold buildParts at h
    by_cases h1 : p.type = "text"
    · rw [if_pos h1] at h
      cases hr : buildParts fo rest with
      | error e0 =>
        simp only [hr] at h
        injection h with h'
        exact h' ▸ buildParts_error_firstChar fo rest e0 hr
      | ok tail => simp only [hr] at h; simp at h
    · rw [if_neg h1] at h
      by_cases h2 : p.type = "file"
      · rw [if_pos h2] at h
        cases hp : processFileArgument fo p.value with
        | error e0 =>
          simp only [hp] at h
          injection h with h'
          subst h'
          left
          have d1 : ("failed to process file argument '" : String).data ≠ [] := by decide
          have d2 := strDataNeNilAppend _ p.value d1
          have d3 := strDataNeNilAppend _ "': " d2
          rw [firstCharAppend _ e0 d3, firstCharAppend _ "': " d2,
            firstCharAppend _ p.value d1]
          decide
        | ok md =>
          obtain ⟨mt, d⟩ := md
          simp only [hp] at h
          cases hr : buildParts fo rest with
          | error e0 =>
            simp only [hr] at h
            injection h with h'
            exact h' ▸ buildParts_error_firstChar fo rest e0 hr
          | ok tail => simp only [hr] at h; simp at h
      · rw [if_neg h2] at h
        injection h with h'
        subst h'
        right
        rw [firstCharAppend _ p.type (by decide)]
        decide

theorem mkGenerationConfig_error_firstChar (ro : String → Except String String)
    (gi : GenerationConfigInput) (e : String)
    (h : mkGenerationConfig ro gi = .error e) : firstChar e = some 'f' := by
  simp only [mkGenerationConfig] at h
  by_cases hrs : gi.responseSchemaFileOrJSON ≠ ""
  · rw [if_pos hrs] at h
    cases hr : readFileOrString ro gi.responseSchemaFileOrJSON with
    | error e0 =>
      simp only [hr] at h
      injection h with h'
      subst h'
      rw [firstCharAppend _ e0 (by decide)]
      decide
    | ok sc => simp only [hr] at h; simp at h
  · rw [if_neg hrs] at h
    simp at h

theorem parseSafetyList_error_firstChar : ∀ (l : List String) (e : String),
    parseSafetyList l = .error e → firstChar e = some 'i'
  | [], e, h => by simp [parseSafetyList] at h
  | pair :: rest, e, h => by
    unfold parseSafetyList at h
    cases hm : breakOnChar ':' (goTrimSpace pair).data with
    | some ab =>
      obtain ⟨a, b⟩ := ab
      simp only [hm] at h
      by_cases hc : goTrimSpace ⟨a⟩ ≠ "" ∧ goTrimSpace ⟨b⟩ ≠ ""
      · have hcb : (decide (goTrimSpace ⟨a⟩ ≠ "") && decide (goTrimSpace ⟨b⟩ ≠ "")) = true := by
          simp [hc.1, hc.2]
        rw [if_pos hcb] at h
        cases hr : parseSafetyList rest with
        | error e0 =>
          simp only [hr] at h
          injection h with h'
          exact h' ▸ parseSafetyList_error_firstChar rest e0 hr
        | ok tail => simp only [hr] at h; simp at h
      · have hcb : (decide (goTrimSpace ⟨a⟩ ≠ "") && decide (goTrimSpace ⟨b⟩ ≠ "")) = false := by
          rcases not_and_or.mp hc with h' | h' <;> simp [not_not.mp h']
        simp only [hcb, Bool.false_eq_true, if_false] at h
        injection h with h'
        subst h'
        have d1 : ("invalid safety setting pair: '" : String).data ≠ [] := by decide
        have d2 := strDataNeNilAppend _ pair d1
        rw [firstCharAppend _ _ d2, firstCharAppend _ pair d1]
        decide
    | none =>
      simp only [hm] at h
      by_cases hb : goTrimSpace pair ≠ ""
      · rw [if_pos hb] at h
        injection h with h'
        subst h'
        have d1 : ("invalid safety setting format: '" : String).data ≠ [] := by decide
        have d2 := strDataNeNilAppend _ pair d1
        rw [firstCharAppend _ _ d2, firstCharAppend _ pair d1]
        decide
      · rw [if_neg hb] at h
        exact parseSafetyList_error_firstChar rest e h

theorem parseSafetySettings_error_firstChar (s e : String)
    (h : parseSafetySettings s = .error e) : firstChar e = some 'i' := by
  unfold parseSafetySettings at h
  by_cases hs : s ≠ ""
  · rw [if_pos hs] at h
    exact parseSafetyList_error_firstChar _ e h
  · rw [if_neg hs] at h
    simp at h

theorem buildContents_error (fo : String → Except String (String × String))
    (sys : String) (parts : List ParsedPart) (e : String)
    (h : buildContents fo sys parts = .error e) :
    (parts = [] ∧ sys = "" ∧ e = missingInputError) ∨
      firstChar e = some 'f' ∨ firstChar e = some 'u' := by
  unfold buildContents at h
  by_cases hp : parts.length > 0
  · rw [if_pos hp] at h
    cases hb : buildParts fo parts with
    | error e0 =>
      simp only [hb] at h
      injection h with h'
      exact Or.inr (h' ▸ buildParts_error_firstChar fo parts e0 hb)
    | ok t => simp only [hb] at h; simp at h
  · rw [if_neg hp] at h
    by_cases hsys : sys = ""
    · rw [if_pos hsys] at h
      injection h with h'
      exact Or.inl ⟨List.length_eq_zero.mp (by omega), hsys, h'.symm⟩
    · rw [if_neg hsys] at h
      simp at h

/-- C1: with an empty part list and empty system instruction (for any
generation parameters, tool toggles and safety string) the builder fails
with the validation error and `handleGenerateContent` never reaches the
network call; with at least one part or a non-empty system instruction that
check never fails (the builder never returns that validation error). -/
theorem buildRequiresInputSpec (fo : String → Except String (String × String))
    (ro : String → Except String String) (gi : GenerationConfigInput)
    (ti : ToolsInput) (ss : String) :
    (buildGenerateContentRequest fo ro "" [] gi ti ss = .error missingInputError ∧
     generateAttemptsNetworkCall fo ro "" [] gi ti ss = false) ∧
    (∀ (sys : String) (parts : List ParsedPart), (parts ≠ [] ∨ sys ≠ "") →
      buildGenerateContentRequest fo ro sys parts gi ti ss ≠ .error missingInputError) := by
  refine ⟨⟨rfl, rfl⟩, ?_⟩
  intro sys parts hor hcontra
  unfold buildGenerateContentRequest at hcontra
  cases hc : buildContents fo sys parts with
  | error e =>
    simp only [hc] at hcontra
    injection hcontra with h'
    subst h'
    rcases buildContents_error fo sys parts _ hc with ⟨hp, hs, _⟩ | hf | hu
    · rcases hor with h | h
      · exact h hp
      · exact h hs
    · exact absurd hf (by decide)
    · exact absurd hu (by decide)
  | ok contents =>
    simp only [hc] at hcontra
    cases hg : mkGenerationConfig ro gi with
    | error e =>
      simp only [hg] at hcontra
      injection hcontra with h'
      subst h'
      exact absurd (mkGenerationConfig_error_firstChar ro gi _ hg) (by decide)
    | ok gOpt =>
      simp only [hg] at hcontra
      cases hss : parseSafetySettings ss with
      | error e =>
        simp only [hss] at hcontra
        injection hcontra with h'
        subst h'
        exact absurd (parseSafetySettings_error_firstChar ss _ hss) (by decide)
      | ok l => simp only [hss] at hcontra; simp at hcontra

/-- C1 witness: the theorem applied with concrete oracles and inputs (empty
inputs fail without a network attempt; one text part, or a non-empty system
instruction, escapes the check). -/
theorem buildRequiresInputSpecWitness :
    buildGenerateContentRequest fileOracleFail readOracleFail "" [] giUnset tiOff "" =
      .error missingInputError ∧
    generateAttemptsNetworkCall fileOracleFail readOracleFail "" [] giUnset tiOff "" = false ∧
    buildGenerateContentRequest fileOracleFail readOracleFail "sys" [] giUnset tiOff "" ≠
      .error missingInputError ∧
    buildGenerateContentRequest fileOracleFail readOracleFail "" [⟨"text", "hi"⟩] giUnset tiOff "" ≠
      .error missingInputError :=
  ⟨(buildRequiresInputSpec fileOracleFail readOracleFail giUnset tiOff "").1.1,
   (buildRequiresInputSpec fileOracleFail readOracleFail giUnset tiOff "").1.2,
   (buildRequiresInputSpec fileOracleFail readOracleFail giUnset tiOff "").2 "sys" []
     (Or.inr (by decide)),
   (buildRequiresInputSpec fileOracleFail readOracleFail giUnset tiOff "").2 ""
     [⟨"text", "hi"⟩] (Or.inl (by decide))⟩

end GeminiCLI
